import Mathlib

/-!
# Verification of the memoryball-studio subject-framing engine

A shallow embedding of the core crop/motion computation of the
memoryball-studio repository (`src/utils.py`, `src/face_cropper.py`,
`src/image_pipeline.py`), together with theorems settling the frozen claims
about it.

Modelling conventions:
* Python floats are modelled as rationals (`ℚ`); Python ints that enter
  float arithmetic (image dimensions, frame counts) are modelled as `ℚ`
  or `ℤ` as appropriate.
* Image-dependent steps (pixel decoding, the detector backends inside
  `detect_subjects`, actual frame rendering/encoding) are external
  collaborators: detection outcomes enter the model as explicit
  `DetectionResult` lists, and a generated frame is identified with the
  `CropBox` it renders (rendering is a deterministic function of the box).
* Python's `sorted(..., reverse=True)` (a stable descending sort) is
  modelled by a structurally recursive stable insertion sort; Python's
  `round` (round-half-to-even) is modelled by `pyRound`.
-/

namespace MemoryBall

/-- `CropBox` from `src/utils.py`: a square crop region, top-left corner
plus side length, in source-pixel coordinates. -/
@[ext]
structure CropBox where
  x : ℚ
  y : ℚ
  size : ℚ
  deriving DecidableEq, Repr

/-- `clamp` from `src/utils.py`: `max(low, min(value, high))`. -/
def clamp (value low high : ℚ) : ℚ :=
  max low (min value high)

/-- `max_crop_size` from `src/utils.py`: `float(max(width, height))`. -/
def maxCropSize (width height : ℚ) : ℚ :=
  max width height

/-- `crop_position_bounds` from `src/utils.py`: the allowed coordinate
range `[-overflow, dimension - size + overflow]` for one crop side (with
`overflow = size * overflow_ratio`), the upper bound collapsed onto the
lower bound when it would fall below it. -/
def cropPositionBounds (size dimension overflowRatio : ℚ) : ℚ × ℚ :=
  if dimension - size + size * overflowRatio < -(size * overflowRatio) then
    (-(size * overflowRatio), -(size * overflowRatio))
  else
    (-(size * overflowRatio), dimension - size + size * overflowRatio)

/-- `normalize_crop_with_overflow` from `src/utils.py`. -/
def normalizeCropWithOverflow (width height : ℚ) (cropBox : CropBox)
    (overflowRatio : ℚ) : CropBox :=
  let size := clamp cropBox.size 1 (maxCropSize width height)
  let bx := cropPositionBounds size width overflowRatio
  let bY := cropPositionBounds size height overflowRatio
  { x := clamp cropBox.x bx.1 bx.2, y := clamp cropBox.y bY.1 bY.2, size := size }

/-- `_circle_fraction` from `src/utils.py`. -/
def circleFraction (circleMargin : ℚ) : ℚ :=
  if circleMargin ≤ 0 then 1 else max 0 (1 - 2 * circleMargin)

/-- `square_size_for_circle` from `src/utils.py` (default margin 0.1). -/
def squareSizeForCircle (diameter circleMargin : ℚ) : ℚ :=
  let d := max 0 diameter
  let fraction := circleFraction circleMargin
  if fraction ≤ 0 then d
  else if d = 0 then 0 else d / fraction

/-- `expand_crop_for_circle` from `src/utils.py`. -/
def expandCropForCircle (crop : CropBox) (circleMargin : ℚ) : CropBox :=
  let fraction := circleFraction circleMargin
  if fraction ≤ 0 then { x := crop.x, y := crop.y, size := crop.size }
  else
    let newSize := crop.size / fraction
    let centerX := crop.x + crop.size / 2
    let centerY := crop.y + crop.size / 2
    { x := centerX - newSize / 2, y := centerY - newSize / 2, size := newSize }

/-- `_circle_base_size` from `src/image_pipeline.py`
(`if pad:` is Python truthiness on a float, i.e. `pad ≠ 0`). -/
def circleBaseSize (width height pad : ℚ) : ℚ :=
  let diameter := min width height
  let diameter := if pad ≠ 0 then max 1 (diameter * (1 - pad)) else diameter
  squareSizeForCircle diameter (1/10)

/-- `_center_square` from `src/image_pipeline.py`. -/
def centerSquare (width height pad : ℚ) : CropBox :=
  let size := circleBaseSize width height pad
  { x := (width - size) / 2, y := (height - size) / 2, size := size }

section ClampLemmas

theorem le_clamp (v lo hi : ℚ) : lo ≤ clamp v lo hi :=
  le_max_left _ _

theorem clamp_le (v : ℚ) {lo hi : ℚ} (h : lo ≤ hi) : clamp v lo hi ≤ hi :=
  max_le h (min_le_right _ _)

theorem clamp_clamp (v lo hi : ℚ) :
    clamp (clamp v lo hi) lo hi = clamp v lo hi := by
  simp only [clamp, max_def, min_def]
  split_ifs <;> linarith

theorem clamp_eq_self {v lo hi : ℚ} (h1 : lo ≤ v) (h2 : v ≤ hi) :
    clamp v lo hi = v := by
  simp only [clamp, max_def, min_def]
  split_ifs <;> linarith

/-- The projection onto `[lo, hi]` does not increase the distance to a
point already inside `[lo, hi]`. -/
theorem clamp_dist_le (v : ℚ) {lo hi t : ℚ} (h1 : lo ≤ t) (h2 : t ≤ hi) :
    |clamp v lo hi - t| ≤ |v - t| := by
  have ha := le_abs_self (v - t)
  have hb := neg_abs_le (v - t)
  rw [abs_le]
  simp only [clamp, max_def, min_def]
  split_ifs <;> constructor <;> linarith

/-- Shared bounds for one axis of `normalizeCropWithOverflow`. -/
theorem clamp_bounds_axis (s dim r xv : ℚ) (h1 : 1 ≤ s) (hdim : 0 ≤ dim)
    (hr : 0 ≤ r) :
    -(s * r) ≤ clamp xv (cropPositionBounds s dim r).1 (cropPositionBounds s dim r).2
    ∧ clamp xv (cropPositionBounds s dim r).1 (cropPositionBounds s dim r).2
        ≤ dim + s * r
    ∧ -(s * r) ≤ clamp xv (cropPositionBounds s dim r).1 (cropPositionBounds s dim r).2 + s
    ∧ (s ≤ dim + 2 * (s * r) →
        clamp xv (cropPositionBounds s dim r).1 (cropPositionBounds s dim r).2 + s
          ≤ dim + s * r) := by
  have hov : 0 ≤ s * r := mul_nonneg (by linarith) hr
  unfold cropPositionBounds
  split_ifs with hcol
  · dsimp only
    have hlo := le_clamp xv (-(s * r)) (-(s * r))
    have hhi := clamp_le xv (le_refl (-(s * r)))
    exact ⟨hlo, by linarith, by linarith, fun hnc => by linarith⟩
  · dsimp only
    push_neg at hcol
    have hlo := le_clamp xv (-(s * r)) (dim - s + s * r)
    have hhi := clamp_le xv hcol
    exact ⟨hlo, by linarith, by linarith, fun _ => by linarith⟩

end ClampLemmas

/-- C2 counterexample input: collapsed position range.
`normalize_crop_with_overflow(2, 10, CropBox(0, 0, 10), 0.0)` keeps
`size = 10`, collapses the allowed `x` range to the single point `0`,
and returns a box with `x + size = 10 > width + size*overflow = 2`. -/
theorem normalizeCrop_bounds_counterexample :
    (normalizeCropWithOverflow 2 10 { x := 0, y := 0, size := 10 } 0).x
      + (normalizeCropWithOverflow 2 10 { x := 0, y := 0, size := 10 } 0).size
      > 2 + (normalizeCropWithOverflow 2 10 { x := 0, y := 0, size := 10 } 0).size * 0 := by
  norm_num [normalizeCropWithOverflow, cropPositionBounds, clamp, maxCropSize]

/-- C2 (amended): for nonnegative dimensions with `max(width,height) ≥ 1`
and nonnegative overflow ratio, the normalized box has `size` in
`[1, max(width,height)]`, its `x` and `x + size` are at least
`-size*overflow`, `x` itself is at most `width + size*overflow`, and
`x + size ≤ width + size*overflow` whenever the allowed `x` range does not
collapse (i.e. `size ≤ width + 2*size*overflow`); symmetrically for `y`. -/
theorem normalizeCrop_postcondition (width height : ℚ) (box : CropBox)
    (overflowRatio : ℚ) (hmax : 1 ≤ maxCropSize width height)
    (hw : 0 ≤ width) (hh : 0 ≤ height) (hr : 0 ≤ overflowRatio) :
    1 ≤ (normalizeCropWithOverflow width height box overflowRatio).size
    ∧ (normalizeCropWithOverflow width height box overflowRatio).size
        ≤ maxCropSize width height
    ∧ (-(((normalizeCropWithOverflow width height box overflowRatio).size)
          * overflowRatio)
        ≤ (normalizeCropWithOverflow width height box overflowRatio).x
      ∧ (normalizeCropWithOverflow width height box overflowRatio).x
          ≤ width + (normalizeCropWithOverflow width height box overflowRatio).size
              * overflowRatio
      ∧ -(((normalizeCropWithOverflow width height box overflowRatio).size)
          * overflowRatio)
        ≤ (normalizeCropWithOverflow width height box overflowRatio).x
            + (normalizeCropWithOverflow width height box overflowRatio).size
      ∧ ((normalizeCropWithOverflow width height box overflowRatio).size
            ≤ width + 2 * ((normalizeCropWithOverflow width height box overflowRatio).size
                * overflowRatio) →
          (normalizeCropWithOverflow width height box overflowRatio).x
              + (normalizeCropWithOverflow width height box overflowRatio).size
            ≤ width + (normalizeCropWithOverflow width height box overflowRatio).size
                * overflowRatio))
    ∧ (-(((normalizeCropWithOverflow width height box overflowRatio).size)
          * overflowRatio)
        ≤ (normalizeCropWithOverflow width height box overflowRatio).y
      ∧ (normalizeCropWithOverflow width height box overflowRatio).y
          ≤ height + (normalizeCropWithOverflow width height box overflowRatio).size
              * overflowRatio
      ∧ -(((normalizeCropWithOverflow width height box overflowRatio).size)
          * overflowRatio)
        ≤ (normalizeCropWithOverflow width height box overflowRatio).y
            + (normalizeCropWithOverflow width height box overflowRatio).size
      ∧ ((normalizeCropWithOverflow width height box overflowRatio).size
            ≤ height + 2 * ((normalizeCropWithOverflow width height box overflowRatio).size
                * overflowRatio) →
          (normalizeCropWithOverflow width height box overflowRatio).y
              + (normalizeCropWithOverflow width height box overflowRatio).size
            ≤ height + (normalizeCropWithOverflow width height box overflowRatio).size
                * overflowRatio)) := by
  have h1 : 1 ≤ clamp box.size 1 (maxCropSize width height) := le_clamp _ _ _
  have h2 : clamp box.size 1 (maxCropSize width height) ≤ maxCropSize width height :=
    clamp_le _ hmax
  exact ⟨h1, h2,
    clamp_bounds_axis (clamp box.size 1 (maxCropSize width height)) width
      overflowRatio box.x h1 hw hr,
    clamp_bounds_axis (clamp box.size 1 (maxCropSize width height)) height
      overflowRatio box.y h1 hh hr⟩

/-- C2 witness: the amended postcondition evaluated at a concrete input. -/
theorem normalizeCrop_postcondition_witness :
    (1 ≤ maxCropSize 10 10 ∧ (0:ℚ) ≤ 10 ∧ (0:ℚ) ≤ 10 ∧ (0:ℚ) ≤ 1/2)
    ∧ 1 ≤ (normalizeCropWithOverflow 10 10 { x := 2, y := 2, size := 5 } (1/2)).size := by
  refine ⟨⟨?_, by norm_num, by norm_num, by norm_num⟩, ?_⟩
  · show (1:ℚ) ≤ max 10 10
    norm_num
  · exact (normalizeCrop_postcondition 10 10 { x := 2, y := 2, size := 5 } (1/2)
      (by show (1:ℚ) ≤ max 10 10; norm_num) (by norm_num) (by norm_num) (by norm_num)).1

/-- C9: `normalize_crop_with_overflow` is idempotent for every width,
height, crop box, and overflow ratio. -/
theorem normalizeCrop_idempotent (width height : ℚ) (box : CropBox)
    (overflowRatio : ℚ) :
    normalizeCropWithOverflow width height
        (normalizeCropWithOverflow width height box overflowRatio) overflowRatio
      = normalizeCropWithOverflow width height box overflowRatio := by
  unfold normalizeCropWithOverflow
  simp only
  have hsz : clamp (clamp box.size 1 (maxCropSize width height)) 1 (maxCropSize width height)
      = clamp box.size 1 (maxCropSize width height) := clamp_clamp _ _ _
  ext
  · simp only [hsz]
    exact clamp_clamp _ _ _
  · simp only [hsz]
    exact clamp_clamp _ _ _
  · exact hsz

/-! ## Detection fusion (`src/face_cropper.py`) -/

/-- `DetectionResult` from `src/face_cropper.py`: one candidate subject
region with a confidence-like score. -/
structure DetectionResult where
  score : ℚ
  box : CropBox
  deriving DecidableEq, Repr

/-- Stable insertion for a descending sort: `d` is placed before the first
element `e` with `le e d` (i.e. whose key is not above `d`'s key), so equal
keys keep their original relative order, matching Python's stable
`sorted(..., reverse=True)`. -/
def insertByDesc (le : α → α → Bool) (d : α) : List α → List α
  | [] => [d]
  | e :: rest => if le e d then d :: e :: rest else e :: insertByDesc le d rest

/-- Stable descending sort modelling Python's `sorted(..., reverse=True)`
with key comparison `le e d` meaning "key of `e` ≤ key of `d`". -/
def sortByDesc (le : α → α → Bool) : List α → List α
  | [] => []
  | d :: rest => insertByDesc le d (sortByDesc le rest)

theorem mem_insertByDesc (le : α → α → Bool) (d x : α) (l : List α) :
    x ∈ insertByDesc le d l ↔ x = d ∨ x ∈ l := by
  induction l with
  | nil => simp [insertByDesc]
  | cons e rest ih =>
    simp only [insertByDesc]
    split_ifs
    · simp [List.mem_cons]
    · simp only [List.mem_cons, ih]
      tauto

theorem mem_sortByDesc (le : α → α → Bool) (x : α) (l : List α) :
    x ∈ sortByDesc le l ↔ x ∈ l := by
  induction l with
  | nil => simp [sortByDesc]
  | cons d rest ih =>
    simp only [sortByDesc, mem_insertByDesc, List.mem_cons, ih]

theorem pairwise_insertByDesc (le : α → α → Bool) (d : α) (l : List α)
    (total : ∀ a b, le a b = false → le b a = true)
    (htrans : ∀ a b c, le a b = true → le b c = true → le a c = true)
    (hl : l.Pairwise fun a b => le b a = true) :
    (insertByDesc le d l).Pairwise fun a b => le b a = true := by
  induction l with
  | nil => simp [insertByDesc]
  | cons e rest ih =>
    rcases List.pairwise_cons.mp hl with ⟨he, hrest⟩
    simp only [insertByDesc]
    split_ifs with hed
    · refine List.pairwise_cons.mpr ⟨?_, hl⟩
      intro x hx
      rcases List.mem_cons.mp hx with rfl | hx
      · exact hed
      · exact htrans _ _ _ (he x hx) hed
    · refine List.pairwise_cons.mpr ⟨?_, ih hrest⟩
      intro x hx
      rcases (mem_insertByDesc le d x rest).mp hx with rfl | hx
      · exact total _ _ (by simpa using hed)
      · exact he x hx

theorem pairwise_sortByDesc (le : α → α → Bool) (l : List α)
    (total : ∀ a b, le a b = false → le b a = true)
    (htrans : ∀ a b c, le a b = true → le b c = true → le a c = true) :
    (sortByDesc le l).Pairwise fun a b => le b a = true := by
  induction l with
  | nil => simp [sortByDesc]
  | cons d rest ih => exact pairwise_insertByDesc le d _ total htrans ih

/-- Comparison key of `_merge_detections`' sort: `(score, box.size)`
lexicographically; `detKeyLe e d` holds when `e`'s key is at most `d`'s. -/
def detKeyLe (e d : DetectionResult) : Bool :=
  decide (e.score < d.score ∨ (e.score = d.score ∧ e.box.size ≤ d.box.size))

/-- `FaceCropper._square_iou` from `src/face_cropper.py`. -/
def squareIoU (a b : CropBox) : ℚ :=
  let x1 := max a.x b.x
  let y1 := max a.y b.y
  let x2 := min (a.x + a.size) (b.x + b.size)
  let y2 := min (a.y + a.size) (b.y + b.size)
  if x2 ≤ x1 ∨ y2 ≤ y1 then 0
  else
    let intersection := (x2 - x1) * (y2 - y1)
    let union := a.size * a.size + b.size * b.size - intersection
    if union ≤ 0 then 0 else intersection / union

theorem squareIoU_comm (a b : CropBox) : squareIoU a b = squareIoU b a := by
  unfold squareIoU
  rw [max_comm a.x b.x, max_comm a.y b.y, min_comm (a.x + a.size) (b.x + b.size),
    min_comm (a.y + a.size) (b.y + b.size),
    add_comm (a.size * a.size) (b.size * b.size)]

/-- The inner duplicate scan of `FaceCropper._merge_detections`: walk the
kept list in order; at the first kept candidate whose square-IoU with
`det.box` is `≥ 0.4`, stop and (only if `det` scores strictly higher)
replace that candidate's score/box; return `none` when no kept candidate
overlaps enough (i.e. `det` is not a duplicate). -/
def mergeScan (det : DetectionResult) : List DetectionResult → Option (List DetectionResult)
  | [] => none
  | kept :: rest =>
    if (2/5 : ℚ) ≤ squareIoU det.box kept.box then
      some (if kept.score < det.score then
              { score := det.score, box := det.box } :: rest
            else kept :: rest)
    else
      (mergeScan det rest).map fun updated => kept :: updated

/-- The outer loop of `FaceCropper._merge_detections`: fold the sorted
candidates, appending each non-duplicate (as a fresh copy) to the end of
the kept list. -/
def mergeFold : List DetectionResult → List DetectionResult → List DetectionResult
  | merged, [] => merged
  | merged, det :: rest =>
    match mergeScan det merged with
    | some updated => mergeFold updated rest
    | none =>
      mergeFold
        (merged ++
          [{ score := det.score,
             box := { x := det.box.x, y := det.box.y, size := det.box.size } }])
        rest

/-- `FaceCropper._merge_detections` from `src/face_cropper.py`. -/
def mergeDetections (detections : List DetectionResult) : List DetectionResult :=
  if detections = [] then []
  else mergeFold [] (sortByDesc detKeyLe detections)

/-- C6: two synthetic detections with square-IoU exactly `0.5` and scores
`0.9` / `0.5` merge into exactly one candidate carrying score `0.9` and the
higher-score box, in either input order. -/
theorem mergeDetections_dedup_example :
    squareIoU { x := 0, y := 0, size := 3 } { x := 1, y := 0, size := 3 } = 1/2
    ∧ mergeDetections
        [{ score := 9/10, box := { x := 0, y := 0, size := 3 } },
         { score := 1/2, box := { x := 1, y := 0, size := 3 } }]
        = [{ score := 9/10, box := { x := 0, y := 0, size := 3 } }]
    ∧ mergeDetections
        [{ score := 1/2, box := { x := 1, y := 0, size := 3 } },
         { score := 9/10, box := { x := 0, y := 0, size := 3 } }]
        = [{ score := 9/10, box := { x := 0, y := 0, size := 3 } }] := by
  refine ⟨by norm_num [squareIoU], ?_, ?_⟩ <;>
    norm_num [mergeDetections, mergeFold, mergeScan, sortByDesc, insertByDesc,
      detKeyLe, squareIoU, List.cons_ne_nil]

theorem mergeScan_eq_none {det : DetectionResult} {merged : List DetectionResult}
    (h : mergeScan det merged = none) :
    ∀ kept ∈ merged, squareIoU det.box kept.box < 2/5 := by
  induction merged with
  | nil => simp
  | cons kept rest ih =>
    intro k hk
    by_cases hiou : (2/5 : ℚ) ≤ squareIoU det.box kept.box
    · exact absurd h (by simp [mergeScan, hiou])
    · have hrest : mergeScan det rest = none := by
        have h' := h
        simp only [mergeScan, if_neg hiou, Option.map_eq_none'] at h'
        exact h'
      rcases List.mem_cons.mp hk with rfl | hk'
      · exact lt_of_not_le hiou
      · exact ih hrest k hk'

theorem mergeScan_eq_some {det : DetectionResult} {merged updated : List DetectionResult}
    (hscore : ∀ kept ∈ merged, det.score ≤ kept.score)
    (h : mergeScan det merged = some updated) :
    updated = merged := by
  induction merged generalizing updated with
  | nil => exact absurd h (by simp [mergeScan])
  | cons kept rest ih =>
    by_cases hiou : (2/5 : ℚ) ≤ squareIoU det.box kept.box
    · have hk : ¬kept.score < det.score :=
        not_lt.mpr (hscore kept (List.mem_cons_self _ _))
      simp only [mergeScan, if_pos hiou, if_neg hk, Option.some_inj] at h
      exact h.symm
    · simp only [mergeScan, if_neg hiou, Option.map_eq_some'] at h
      rcases h with ⟨u2, hrec, hu⟩
      rw [← hu, ih (fun k hk => hscore k (List.mem_cons_of_mem _ hk)) hrec]

/-- Invariant step: folding preserves pairwise square-IoU `< 0.4` among the
kept candidates, given the kept scores dominate the remaining scores. -/
theorem mergeFold_pairwise (rest : List DetectionResult) :
    ∀ merged : List DetectionResult,
    (merged.Pairwise fun a b => squareIoU a.box b.box < 2/5) →
    (∀ m ∈ merged, ∀ d ∈ rest, d.score ≤ m.score) →
    (rest.Pairwise fun a b => b.score ≤ a.score) →
    (mergeFold merged rest).Pairwise fun a b => squareIoU a.box b.box < 2/5 := by
  induction rest with
  | nil => intro merged hm _ _; simpa [mergeFold] using hm
  | cons det rest ih =>
    intro merged hm hscore hrest
    rcases List.pairwise_cons.mp hrest with ⟨hdet, hrest'⟩
    unfold mergeFold
    cases hscan : mergeScan det merged with
    | some updated =>
      have hupd : updated = merged :=
        mergeScan_eq_some (fun k hk => hscore k hk det (List.mem_cons_self _ _)) hscan
      rw [hupd]
      exact ih merged hm
        (fun m hm' d hd => hscore m hm' d (List.mem_cons_of_mem _ hd)) hrest'
    | none =>
      have hnone := mergeScan_eq_none hscan
      refine ih _ ?_ ?_ hrest'
      · refine List.pairwise_append.mpr ⟨hm, List.pairwise_singleton _ _, ?_⟩
        intro a ha b hb
        rcases List.mem_singleton.mp hb with rfl
        have := hnone a ha
        rw [squareIoU_comm] at this
        exact this
      · intro m hmem d hd
        rcases List.mem_append.mp hmem with hmem | hmem
        · exact le_trans (hdet d hd) (hscore m hmem det (List.mem_cons_self _ _))
        · rcases List.mem_singleton.mp hmem with rfl
          exact hdet d hd

theorem detKeyLe_total (a b : DetectionResult) :
    detKeyLe a b = false → detKeyLe b a = true := by
  simp only [detKeyLe, decide_eq_false_iff_not, decide_eq_true_eq]
  intro h
  push_neg at h
  rcases lt_or_eq_of_le h.1 with hlt | heq
  · exact Or.inl hlt
  · exact Or.inr ⟨heq, le_of_lt (h.2 heq.symm)⟩

theorem detKeyLe_trans (a b c : DetectionResult) :
    detKeyLe a b = true → detKeyLe b c = true → detKeyLe a c = true := by
  simp only [detKeyLe, decide_eq_true_eq]
  rintro (h1 | ⟨h1, h1'⟩) (h2 | ⟨h2, h2'⟩)
  · exact Or.inl (lt_trans h1 h2)
  · exact Or.inl (h2 ▸ h1)
  · exact Or.inl (h1 ▸ h2)
  · exact Or.inr ⟨h1.trans h2, le_trans h1' h2'⟩

/-- C10: any two candidates kept by `_merge_detections` have square-IoU
strictly below `0.4` (in both orders, the measure being symmetric): the
absorb branch never replaces a kept box, because candidates are visited in
descending `(score, size)` order. -/
theorem mergeDetections_pairwise_separated (detections : List DetectionResult) :
    (mergeDetections detections).Pairwise
      fun a b => squareIoU a.box b.box < 2/5 ∧ squareIoU b.box a.box < 2/5 := by
  have key : (mergeDetections detections).Pairwise
      fun a b => squareIoU a.box b.box < 2/5 := by
    unfold mergeDetections
    split_ifs with hd
    · simp
    · refine mergeFold_pairwise _ [] List.Pairwise.nil (by simp) ?_
      refine (pairwise_sortByDesc detKeyLe detections detKeyLe_total detKeyLe_trans).imp ?_
      intro a b hab
      simp only [detKeyLe, decide_eq_true_eq] at hab
      rcases hab with h | ⟨h, _⟩
      · exact le_of_lt h
      · exact le_of_eq h
  exact key.imp fun h => ⟨h, by rwa [squareIoU_comm]⟩

/-! ## Relevance filter, planner primitives (`src/face_cropper.py`) -/

/-- `face_priority` of `FaceCropper`: the string policy `"largest"`,
`"center"`, `"all"`, or any other string (`other`). -/
inductive FacePriority
  | largest
  | center
  | all
  | other
  deriving DecidableEq, Repr

/-- Configuration of a `FaceCropper` instance (`FaceCropper.__init__`;
the constructor additionally clamps `max_tracking_gap` to `ℕ` and
`max_step_fraction` to be nonnegative, which the field types record). -/
structure FaceCropperCfg where
  minFace : ℚ
  facePriority : FacePriority
  alpha : ℚ
  maxTrackingGap : ℕ
  maxStepFraction : ℚ
  deriving DecidableEq, Repr

/-- Python's `max(list, key=f)`: the first element attaining the maximal
key (later elements replace the running best only when strictly greater);
`none` on an empty list (`default=None`). -/
def pyMaxBy (f : α → ℚ) : List α → Option α
  | [] => none
  | a :: rest => some (rest.foldl (fun best x => if f best < f x then x else best) a)

/-- Python's `min(list, key=f)`: the first element attaining the minimal
key; `none` on an empty list. -/
def pyMinBy (f : α → ℚ) : List α → Option α
  | [] => none
  | a :: rest => some (rest.foldl (fun best x => if f x < f best then x else best) a)

/-- Python's `max(f(d) for d in l)` over a nonempty list (`0` stands for
the `default` used when the list is empty). -/
def maxOf (f : α → ℚ) (default : ℚ) : List α → ℚ
  | [] => default
  | a :: rest => rest.foldl (fun m x => max m (f x)) (f a)

/-- Python's `min(f(d) for d in l)` over a nonempty list. -/
def minOf (f : α → ℚ) (default : ℚ) : List α → ℚ
  | [] => default
  | a :: rest => rest.foldl (fun m x => min m (f x)) (f a)

/-- `center_factor` from `FaceCropper._filter_relevant_detections`. -/
def centerFactor (width height : ℚ) (det : DetectionResult) : ℚ :=
  let cx := det.box.x + det.box.size / 2
  let cy := det.box.y + det.box.size / 2
  let normDx := |cx - width / 2| / max (width / 2) 1
  let normDy := |cy - height / 2| / max (height / 2) 1
  max 0 (1 - (1/2) * (normDx + normDy))

/-- `priority` from `FaceCropper._filter_relevant_detections`:
`score*0.6 + centerFactor*0.3 + sizeRatio*0.4`. -/
def priorityVal (width height maxSize : ℚ) (det : DetectionResult) : ℚ :=
  det.score * (3/5) + centerFactor width height det * (3/10)
    + det.box.size / max 1 maxSize * (2/5)

/-- `FaceCropper._filter_relevant_detections` from `src/face_cropper.py`. -/
def filterRelevant (detections : List DetectionResult) (width height : ℚ) :
    List DetectionResult :=
  match detections with
  | [] => []
  | _ =>
    let maxSize := maxOf (fun d => d.box.size) 0 detections
    if maxSize ≤ 0 then []
    else
      let sizeThreshold := maxSize * (2/5)
      let filtered := detections.filter fun d =>
        decide (sizeThreshold ≤ d.box.size ∨ (3/5 : ℚ) ≤ d.score
          ∨ (13/20 : ℚ) ≤ centerFactor width height d)
      let pool := if filtered = [] then detections else filtered
      let ranked := (sortByDesc
        (fun e d => decide (priorityVal width height maxSize e
          ≤ priorityVal width height maxSize d)) pool).take 5
      if ranked.length = 1 ∧ 1 < detections.length then
        match pyMaxBy (priorityVal width height maxSize)
            (detections.filter fun x => decide (x ∉ ranked)) with
        | some alt => ranked ++ [alt]
        | none => ranked
      else ranked

/-- `FaceCropper.combine_detections` from `src/face_cropper.py`. -/
def combineDetections (cfg : FaceCropperCfg) (detections : List DetectionResult)
    (width height : ℚ) : Option CropBox :=
  let relevant := filterRelevant detections width height
  if relevant.length < 2 then none
  else
    let minX := minOf (fun d => d.box.x) 0 relevant
    let maxX := maxOf (fun d => d.box.x + d.box.size) 0 relevant
    let minY := minOf (fun d => d.box.y) 0 relevant
    let maxY := maxOf (fun d => d.box.y + d.box.size) 0 relevant
    let coverWidth := maxX - minX
    let coverHeight := maxY - minY
    let minFaceSize := cfg.minFace * min width height
    let largestSize := maxOf (fun d => d.box.size) 0 relevant
    let minSize := max minFaceSize largestSize
    let maxSize := maxCropSize width height
    let size := clamp (max coverWidth (max coverHeight largestSize) * (21/20))
      minSize maxSize
    let weights := relevant.map fun d => max (1/10) d.score * d.box.size
    let totalWeight := if weights.sum = 0 then (relevant.length : ℚ) else weights.sum
    let centersX := relevant.map fun d => d.box.x + d.box.size / 2
    let centersY := relevant.map fun d => d.box.y + d.box.size / 2
    let weightedCx := (List.zipWith (fun c w => c * w) centersX weights).sum / totalWeight
    let weightedCy := (List.zipWith (fun c w => c * w) centersY weights).sum / totalWeight
    let minAllowedX := maxX - size
    let maxAllowedX := minX
    let minAllowedY := maxY - size
    let maxAllowedY := minY
    some { x := clamp (weightedCx - size / 2) minAllowedX maxAllowedX,
           y := clamp (weightedCy - size / 2) minAllowedY maxAllowedY,
           size := size }

/-- `FaceCropper.select_detection` from `src/face_cropper.py`. -/
def selectDetection (cfg : FaceCropperCfg) (detections : List DetectionResult)
    (width height : ℚ) : Option DetectionResult :=
  match detections with
  | [] => none
  | _ =>
    match cfg.facePriority with
    | .center =>
      pyMinBy (fun det => (det.box.x + det.box.size / 2 - width / 2) ^ 2
        + (det.box.y + det.box.size / 2 - height / 2) ^ 2) detections
    | .largest => pyMaxBy (fun det => det.box.size) detections
    | .all => pyMaxBy (fun det => det.box.size) detections
    | .other => detections.head?

/-- `FaceCropper._axis_spans` from `src/face_cropper.py` (`useX` selects
the `"x"` axis; any priority other than `largest`/`center` takes the
`"all"` weighting branch). -/
def axisSpans (cfg : FaceCropperCfg) (detections : List DetectionResult)
    (useX : Bool) (total windowSize : ℚ) : List (ℚ × ℚ × ℚ) :=
  match detections with
  | [] => []
  | _ =>
    let maxSize := maxOf (fun d => d.box.size) 1 detections
    let axisCenter := total / 2
    detections.map fun det =>
      let start := if useX then det.box.x else det.box.y
      let stop := start + det.box.size
      let weight :=
        match cfg.facePriority with
        | .largest => 1 + det.box.size / max 1 maxSize
        | .center =>
          let detCenter := (start + stop) / 2
          let distance := |detCenter - axisCenter|
          let normalized := distance / max axisCenter 1
          1 + max 0 (1 - normalized)
        | _ =>
          let overlapRatio := min det.box.size windowSize / max windowSize 1
          1 + overlapRatio
      (start, stop, weight)

/-- Ascending insertion sort on rationals (used for Python's
`sorted(candidates)` over a set of floats). -/
def insertAscQ (q : ℚ) : List ℚ → List ℚ
  | [] => [q]
  | e :: rest => if q ≤ e then q :: e :: rest else e :: insertAscQ q rest

def sortAscQ : List ℚ → List ℚ
  | [] => []
  | q :: rest => insertAscQ q (sortAscQ rest)

/-- `FaceCropper._best_axis_position` from `src/face_cropper.py`. The
Python `set` of candidate positions followed by `sorted(...)` is modelled
by deduplication followed by an ascending sort. -/
def bestAxisPosition (spans : List (ℚ × ℚ × ℚ)) (windowSize : ℚ) (total : ℚ) : ℚ :=
  let limit := max 0 (total - windowSize)
  if limit ≤ 0 then 0
  else
    let center := clamp (total / 2 - windowSize / 2) 0 limit
    let candidates := sortAscQ (List.dedup
      ([0, limit, center] ++ spans.foldr
        (fun sp acc => clamp sp.1 0 limit :: clamp (sp.2.1 - windowSize) 0 limit :: acc) []))
    let coverage := fun pos => spans.foldl
      (fun value sp =>
        let overlap := min (pos + windowSize) sp.2.1 - max pos sp.1
        if 0 < overlap then value + overlap * sp.2.2 else value) 0
    let best := candidates.foldl
      (fun acc pos =>
        let score := coverage pos
        if acc.1 < score ∨ (score = acc.1 ∧ |pos - center| < |acc.2 - center|)
        then (score, pos) else acc)
      (-1, center)
    clamp best.2 0 limit

/-- `FaceCropper.focus_window` from `src/face_cropper.py`. -/
def focusWindow (cfg : FaceCropperCfg) (detections : List DetectionResult)
    (width height windowSize : ℚ) : Option CropBox :=
  match detections with
  | [] => none
  | _ =>
    let spansX := axisSpans cfg detections true width windowSize
    let spansY := axisSpans cfg detections false height windowSize
    let x := if spansX ≠ [] then bestAxisPosition spansX windowSize width
      else clamp ((width - windowSize) / 2) 0 (max 0 (width - windowSize))
    let y := if spansY ≠ [] then bestAxisPosition spansY windowSize height
      else clamp ((height - windowSize) / 2) 0 (max 0 (height - windowSize))
    some { x := x, y := y, size := windowSize }

/-! ## The image-pipeline crop planner (`src/image_pipeline.py`) -/

/-- `options.mode` of `ProcessingOptions`: `"auto"`, `"center"`, or
`"manual"`. -/
inductive CropMode
  | auto
  | center
  | manual
  deriving DecidableEq, Repr

/-- The slice of `ProcessingOptions` that the crop planner reads.
`faceEnabled` is the conjunction `options.face_detection_enabled and
face_cropper is not None` tested by the pipeline; `fps = none` models
`fps="keep"`. -/
structure PipelineOptions where
  mode : CropMode
  faceEnabled : Bool
  motionEnabled : Bool
  pad : ℚ
  cropX : Option ℚ
  cropY : Option ℚ
  cropW : Option ℚ
  cropH : Option ℚ
  fps : Option ℚ
  deriving DecidableEq, Repr

/-- `determine_crop_box` from `src/image_pipeline.py`. The image enters
only through its dimensions and the detection list that
`detect_subjects` returned for it, which is passed in explicitly
(detector backends are external collaborators). -/
def determineCropBox (cfg : FaceCropperCfg) (opts : PipelineOptions)
    (width height : ℚ) (detections : List DetectionResult) : CropBox :=
  let base := centerSquare width height opts.pad
  let manualBox : Option CropBox :=
    match opts.mode, opts.cropX, opts.cropY, opts.cropW, opts.cropH with
    | .manual, some cx, some cy, some cw, some ch =>
      some { x := cx, y := cy, size := min cw ch }
    | _, _, _, _, _ => none
  if opts.mode = .center then
    normalizeCropWithOverflow width height base (1/2)
  else
    match manualBox with
    | some mb => normalizeCropWithOverflow width height mb (1/2)
    | none =>
      if opts.faceEnabled then
        let cropBox :=
          if detections = [] then base
          else
            match combineDetections cfg detections width height with
            | some combined => combined
            | none =>
              match selectDetection cfg detections width height with
              | some target =>
                let size := target.box.size
                let centerX := target.box.x + size / 2
                let centerY := target.box.y + size / 2
                { x := centerX - size / 2, y := centerY - size / 2, size := size }
              | none =>
                match focusWindow cfg detections width height base.size with
                | some focus => focus
                | none => base
        normalizeCropWithOverflow width height cropBox 0
      else normalizeCropWithOverflow width height base (1/2)

section CombineFallback

theorem pyMaxBy_eq_none {f : α → ℚ} {l : List α} :
    pyMaxBy f l = none ↔ l = [] := by
  cases l <;> simp [pyMaxBy]

theorem foldl_pick_const {f : α → ℚ} {d : α} :
    ∀ {l : List α}, (∀ x ∈ l, x = d) →
      l.foldl (fun best x => if f best < f x then x else best) d = d := by
  intro l
  induction l with
  | nil => intro; rfl
  | cons x rest ih =>
    intro hx
    have hxd : x = d := hx x (List.mem_cons_self _ _)
    simp only [List.foldl_cons, hxd, ite_self]
    exact ih fun y hy => hx y (List.mem_cons_of_mem _ hy)

theorem pyMaxBy_all_eq {f : α → ℚ} {l : List α} {d : α} (hl : l ≠ [])
    (hall : ∀ x ∈ l, x = d) : pyMaxBy f l = some d := by
  cases l with
  | nil => exact absurd rfl hl
  | cons a rest =>
    have ha : a = d := hall a (List.mem_cons_self _ _)
    subst ha
    simp only [pyMaxBy, Option.some_inj]
    exact foldl_pick_const fun x hx => hall x (List.mem_cons_of_mem _ hx)

theorem mem_take_sortByDesc {le : α → α → Bool} {x : α} {l : List α} {n : ℕ}
    (hx : x ∈ (sortByDesc le l).take n) : x ∈ l :=
  (mem_sortByDesc le x l).mp (List.take_subset _ _ hx)

theorem filterRelevant_tail_aux {f : DetectionResult → ℚ}
    {dets ranked : List DetectionResult} {d : DetectionResult}
    (hsub : ∀ x ∈ ranked, x ∈ dets)
    (hres : (if ranked.length = 1 ∧ 1 < dets.length then
               match pyMaxBy f (dets.filter fun x => decide (x ∉ ranked)) with
               | some alt => ranked ++ [alt]
               | none => ranked
             else ranked) = [d]) :
    ∀ x ∈ dets, x = d := by
  split_ifs at hres with hcond
  · split at hres
    next alt halt =>
      have hlen := congrArg List.length hres
      simp only [List.length_append, List.length_singleton, hcond.1] at hlen
      omega
    next halt =>
      have hfilter := pyMaxBy_eq_none.mp halt
      intro x hx
      have hmem : x ∈ ranked := by
        by_contra hnot
        have := List.filter_eq_nil_iff.mp hfilter x hx
        simp only [decide_eq_true_eq] at this
        exact this hnot
      rw [hres] at hmem
      exact List.mem_singleton.mp hmem
  · intro x hx
    have hlen1 : ranked.length = 1 := by rw [hres]; rfl
    have hd : d ∈ dets := hsub d (by rw [hres]; exact List.mem_singleton_self d)
    cases dets with
    | nil => cases hx
    | cons a rest =>
      have hrest : rest = [] := by
        have hle : ¬1 < (a :: rest).length := fun hgt => hcond ⟨hlen1, hgt⟩
        simp only [List.length_cons, not_lt] at hle
        exact List.length_eq_zero.mp (by omega)
      subst hrest
      exact (List.mem_singleton.mp hx).trans (List.mem_singleton.mp hd).symm

theorem filterRelevant_singleton {dets : List DetectionResult} {w h : ℚ}
    {d : DetectionResult} (hrel : filterRelevant dets w h = [d]) :
    dets ≠ [] ∧ ∀ x ∈ dets, x = d := by
  cases dets with
  | nil => simp [filterRelevant] at hrel
  | cons a rest =>
    refine ⟨by simp, ?_⟩
    unfold filterRelevant at hrel
    dsimp only at hrel
    by_cases hms : maxOf (fun det => det.box.size) 0 (a :: rest) ≤ 0
    · rw [if_pos hms] at hrel
      exact absurd hrel (by simp)
    · rw [if_neg hms] at hrel
      refine filterRelevant_tail_aux ?_ hrel
      intro x hx
      have h2 := mem_take_sortByDesc hx
      revert h2
      split_ifs with hpool
      · exact fun h2 => h2
      · exact fun h2 => List.mem_of_mem_filter h2

theorem selectDetection_largest {cfg : FaceCropperCfg}
    (hpr : cfg.facePriority = .largest) {dets : List DetectionResult}
    {d : DetectionResult} (hne : dets ≠ []) (hall : ∀ x ∈ dets, x = d)
    (w h : ℚ) : selectDetection cfg dets w h = some d := by
  cases dets with
  | nil => exact absurd rfl hne
  | cons a rest =>
    simp only [selectDetection, hpr]
    exact pyMaxBy_all_eq (by simp) hall

theorem combineDetections_lt_two {cfg : FaceCropperCfg}
    {dets : List DetectionResult} {w h : ℚ}
    (hlen : (filterRelevant dets w h).length < 2) :
    combineDetections cfg dets w h = none := by
  simp only [combineDetections, if_pos hlen]

/-- C7: `combine_detections` returns `None` whenever fewer than two
relevant detections exist; and when exactly one relevant detection `d`
survives the filter (so, by the filter's add-back rule, every input
detection equals `d`) and the priority is `largest`, `determine_crop_box`
falls back to `select_detection` and returns `d`'s box unchanged
(provided `d`'s box is already normalized, as every fusion-produced box
is: fusion clamps boxes into the frame). -/
theorem combine_precondition_and_fallback (cfg : FaceCropperCfg)
    (dets : List DetectionResult) (w h : ℚ) (d : DetectionResult)
    (me : Bool) (pad : ℚ) (cx cy cw ch fpsOpt : Option ℚ) :
    ((filterRelevant dets w h).length < 2 → combineDetections cfg dets w h = none)
    ∧ (cfg.facePriority = .largest →
       filterRelevant dets w h = [d] →
       normalizeCropWithOverflow w h d.box 0 = d.box →
       determineCropBox cfg
         { mode := .auto, faceEnabled := true, motionEnabled := me, pad := pad,
           cropX := cx, cropY := cy, cropW := cw, cropH := ch, fps := fpsOpt }
         w h dets = d.box) := by
  refine ⟨fun hlen => combineDetections_lt_two hlen, fun hpr hrel hnorm => ?_⟩
  obtain ⟨hne, hall⟩ := filterRelevant_singleton hrel
  have hcomb : combineDetections cfg dets w h = none :=
    combineDetections_lt_two (by rw [hrel]; norm_num)
  have hsel : selectDetection cfg dets w h = some d :=
    selectDetection_largest hpr hne hall w h
  have hbox : ({ x := d.box.x + d.box.size / 2 - d.box.size / 2,
                 y := d.box.y + d.box.size / 2 - d.box.size / 2,
                 size := d.box.size } : CropBox) = d.box := by
    ext <;> ring_nf
  simp only [determineCropBox, if_neg hne, hcomb, hsel, reduceCtorEq, if_false, if_true]
  rw [hbox, hnorm]

def cfgW7 : FaceCropperCfg :=
  { minFace := 1/10, facePriority := .largest, alpha := 2/5,
    maxTrackingGap := 15, maxStepFraction := 3/20 }

def dW7 : DetectionResult := { score := 9/10, box := { x := 10, y := 10, size := 50 } }

/-- C7 witness: the theorem applied to a single concrete in-frame
detection. -/
theorem combine_precondition_and_fallback_witness :
    cfgW7.facePriority = .largest
    ∧ filterRelevant [dW7] 100 100 = [dW7]
    ∧ normalizeCropWithOverflow 100 100 dW7.box 0 = dW7.box
    ∧ determineCropBox cfgW7
        { mode := .auto, faceEnabled := true, motionEnabled := false, pad := 0,
          cropX := none, cropY := none, cropW := none, cropH := none, fps := none }
        100 100 [dW7] = dW7.box := by
  have hrel : filterRelevant [dW7] 100 100 = [dW7] := by
    norm_num [filterRelevant, maxOf, dW7, centerFactor, priorityVal, sortByDesc,
      insertByDesc, List.filter]
  have hnorm : normalizeCropWithOverflow 100 100 dW7.box 0 = dW7.box := by
    norm_num [normalizeCropWithOverflow, cropPositionBounds, clamp, maxCropSize, dW7]
  exact ⟨rfl, hrel, hnorm,
    (combine_precondition_and_fallback cfgW7 [dW7] 100 100 dW7 false 0
      none none none none none).2 rfl hrel hnorm⟩

end CombineFallback

/-! ## Motion planning (`FaceCropper.plan_motion`,
`determine_motion_manual`) -/

/-- `FaceCropper._position_with_constraints` from `src/face_cropper.py`. -/
def positionWithConstraints (preferred minEdge maxEdge size total : ℚ) : ℚ :=
  let limit := max 0 (total - size)
  let coverageMin := max (maxEdge - size) 0
  let coverageMax := min minEdge limit
  if coverageMax < coverageMin then clamp preferred 0 limit
  else clamp preferred coverageMin coverageMax

/-- `FaceCropper._crop_from_bounds` from `src/face_cropper.py`. -/
def cropFromBounds (minX maxX minY maxY size : ℚ) (width height topRatio : ℚ) :
    CropBox :=
  let preferredX := (minX + maxX) / 2 - size / 2
  let preferredY := minY - size * topRatio
  { x := positionWithConstraints preferredX minX maxX size width,
    y := positionWithConstraints preferredY minY maxY size height,
    size := size }

/-- `FaceCropper.plan_motion` from `src/face_cropper.py`, with its
keyword parameters (`body_scale=1.7`, `face_margin=0.12`,
`body_top_ratio=0.2`, `face_top_ratio=0.08`) passed explicitly. -/
def planMotion (detections : List DetectionResult) (width height : ℚ)
    (cfg : FaceCropperCfg) (bodyScale faceMargin bodyTopRatio faceTopRatio : ℚ) :
    Option (CropBox × CropBox) :=
  let relevant := filterRelevant detections width height
  match relevant with
  | [] => none
  | _ =>
    let rel := sortByDesc (fun e d => decide (e.box.size ≤ d.box.size)) relevant
    let minX := minOf (fun d => d.box.x) 0 rel
    let maxX := maxOf (fun d => d.box.x + d.box.size) 0 rel
    let minY := minOf (fun d => d.box.y) 0 rel
    let maxY := maxOf (fun d => d.box.y + d.box.size) 0 rel
    let minFaceSize := cfg.minFace * min width height
    let largestSize := maxOf (fun d => d.box.size) 0 rel
    let minSize := max minFaceSize largestSize
    let maxSize := maxCropSize width height
    let spanWidth := maxX - minX
    let spanHeight := maxY - minY
    let baseSpan := max spanWidth (max spanHeight largestSize)
    let faceSize := clamp (baseSpan * (1 + faceMargin)) minSize maxSize
    let bodySize := clamp (faceSize * bodyScale) minSize maxSize
    match rel with
    | primary :: secondary :: _ =>
      if ¬(spanWidth ≤ maxSize ∧ spanHeight ≤ maxSize) then
        let primaryMin := max minFaceSize primary.box.size
        let secondaryMin := max minFaceSize secondary.box.size
        some (cropFromBounds primary.box.x (primary.box.x + primary.box.size)
                primary.box.y (primary.box.y + primary.box.size)
                (clamp (primary.box.size * bodyScale) primaryMin maxSize)
                width height bodyTopRatio,
              cropFromBounds secondary.box.x (secondary.box.x + secondary.box.size)
                secondary.box.y (secondary.box.y + secondary.box.size)
                (clamp (secondary.box.size * (1 + faceMargin)) secondaryMin maxSize)
                width height faceTopRatio)
      else
        some (cropFromBounds minX maxX minY maxY bodySize width height bodyTopRatio,
              cropFromBounds minX maxX minY maxY faceSize width height faceTopRatio)
    | _ =>
      some (cropFromBounds minX maxX minY maxY bodySize width height bodyTopRatio,
            cropFromBounds minX maxX minY maxY faceSize width height faceTopRatio)

/-- The `motion_direction` read by `determine_motion_manual` via
`getattr(options, "motion_direction", "in")` (a string; the pipeline only
tests `direction.lower() == "out"`). -/
inductive MotionDirection
  | zoomIn
  | zoomOut
  deriving DecidableEq, Repr

/-- `ManualCrop` from `src/utils.py` (`end` is a Lean keyword, so the
second field is named `stop`). -/
structure ManualCrop where
  start : CropBox
  stop : CropBox
  deriving DecidableEq, Repr

/-- `determine_motion_manual` from `src/image_pipeline.py`. The image
enters only through its dimensions and the detection list that
`detect_subjects` returned for it. `plan_motion` is called with its
default keyword parameters. -/
def determineMotionManual (cfg : FaceCropperCfg) (opts : PipelineOptions)
    (width height : ℚ) (detections : List DetectionResult)
    (direction : MotionDirection) : ManualCrop :=
  let base := centerSquare width height opts.pad
  if opts.motionEnabled = false then
    let n := normalizeCropWithOverflow width height base 0
    { start := n, stop := n }
  else if opts.faceEnabled = false then
    let n := normalizeCropWithOverflow width height base 0
    { start := n, stop := n }
  else if detections = [] then
    let fb := determineCropBox cfg opts width height detections
    { start := fb, stop := fb }
  else
    match planMotion detections width height cfg (17/10) (3/25) (1/5) (2/25) with
    | none =>
      let fb := determineCropBox cfg opts width height detections
      { start := fb, stop := fb }
    | some (s, e) =>
      let s1 := normalizeCropWithOverflow width height s 0
      let e1 := normalizeCropWithOverflow width height e 0
      match direction with
      | .zoomOut => { start := e1, stop := s1 }
      | .zoomIn => { start := s1, stop := e1 }

/-- C8: with the same image (dimensions and detections) and the same
options, the motion plan produced with direction `"out"` is exactly the
plan of direction `"in"` with start and end swapped. -/
theorem motionDirection_swap (cfg : FaceCropperCfg) (opts : PipelineOptions)
    (width height : ℚ) (detections : List DetectionResult) :
    determineMotionManual cfg opts width height detections .zoomOut
      = { start := (determineMotionManual cfg opts width height detections .zoomIn).stop,
          stop := (determineMotionManual cfg opts width height detections .zoomIn).start } := by
  unfold determineMotionManual
  split_ifs <;> try rfl
  cases planMotion detections width height cfg (17/10) (3/25) (1/5) (2/25) with
  | none => rfl
  | some se => cases se with | mk s e => rfl

/-! ## Frame-sequence generation (`src/image_pipeline.py`) -/

/-- Python's built-in `round` (round half to even), as used for frame
counts. -/
def pyRound (q : ℚ) : ℤ :=
  let n := ⌊q⌋
  let f := q - n
  if f < 1/2 then n
  else if 1/2 < f then n + 1
  else if n % 2 = 0 then n else n + 1

/-- `IMAGE_CLIP_DURATION` from `src/image_pipeline.py`. -/
def imageClipDuration : ℚ := 5

/-- `IMAGE_START_HOLD` from `src/image_pipeline.py`. -/
def imageStartHold : ℚ := 1/2

/-- `IMAGE_END_HOLD` from `src/image_pipeline.py`. -/
def imageEndHold : ℚ := 1/2

/-- `IMAGE_TRANSITION_DURATION` from `src/image_pipeline.py`. -/
def imageTransitionDuration : ℚ :=
  max 0 (imageClipDuration - imageStartHold - imageEndHold)

/-- `total_frames = max(1, int(round(duration * fps)))` from
`_iter_motion_frames`. -/
def totalFrames (fps duration : ℚ) : ℤ :=
  max 1 (pyRound (duration * fps))

/-- `max(1, int(round(IMAGE_START_HOLD * fps)))`. -/
def startHold0 (fps : ℚ) : ℤ :=
  max 1 (pyRound (imageStartHold * fps))

/-- `max(1, int(round(IMAGE_END_HOLD * fps)))`. -/
def endHold0 (fps : ℚ) : ℤ :=
  max 1 (pyRound (imageEndHold * fps))

/-- The start-hold / transition / end-hold frame counts computed by
`_iter_motion_frames` when `motion_enabled` is true (lines 190-206 of
`src/image_pipeline.py`): leftovers are folded into the transition
segment, reductions are taken from the start hold (never below one frame)
before the end hold. -/
def motionCounts (fps : ℚ) (total : ℤ) : ℤ × ℤ × ℤ :=
  let sh0 := startHold0 fps
  let eh0 := endHold0 fps
  let desired := max 0 (pyRound (imageTransitionDuration * fps))
  let available := max 0 (total - sh0 - eh0)
  let mf0 := min available desired
  let leftover := total - (sh0 + eh0 + mf0)
  let mf1 := if 0 < leftover then mf0 + leftover else mf0
  let remainder := total - (sh0 + eh0 + mf1)
  if remainder < 0 then
    let reduction := -remainder
    let reduceStart := min reduction (sh0 - 1)
    let sh1 := sh0 - reduceStart
    let reduction1 := reduction - reduceStart
    let eh1 := if 0 < reduction1 then max 0 (eh0 - reduction1) else eh0
    (sh1, max 0 (total - sh1 - eh1), eh1)
  else (sh0, mf1, eh0)

/-- `_interpolate_crop` from `src/image_pipeline.py`. -/
def interpolateCrop (start stop : CropBox) (fraction : ℚ) : CropBox :=
  let f := clamp fraction 0 1
  { x := start.x + (stop.x - start.x) * f,
    y := start.y + (stop.y - start.y) * f,
    size := start.size + (stop.size - start.size) * f }

/-- `_iter_motion_frames` from `src/image_pipeline.py`, as the ordered
list of crop boxes rendered (a yielded frame is the deterministic
rendering of its crop box, so frames are identified with boxes). -/
def motionCropsList (start stop : CropBox) (fps duration : ℚ)
    (motionEnabled : Bool) : List CropBox :=
  let total := totalFrames fps duration
  let counts := if motionEnabled then motionCounts fps total else (total, 0, 0)
  let sh := counts.1
  let mf := counts.2.1
  let eh := counts.2.2
  List.replicate sh.toNat start
    ++ (if motionEnabled = true ∧ 0 < mf then
          (List.range mf.toNat).map fun (index : ℕ) =>
            let linear := ((index : ℚ) + 1) / ((mf : ℚ) + 1)
            let eased := linear * linear * (3 - 2 * linear)
            interpolateCrop start stop (clamp eased 0 1)
        else List.replicate mf.toNat start)
    ++ List.replicate eh.toNat stop

/-- `_preferred_fps` from `src/image_pipeline.py` (`none` models
`fps="keep"`, which maps to `DEFAULT_IMAGE_FPS = 30`). -/
def preferredFps (fps : Option ℚ) : ℚ :=
  match fps with
  | none => 30
  | some f => max 1 f

/-- The start/end crop selection of `process_image`
(`src/image_pipeline.py` lines 301-315): manual crops are normalized with
overflow, auto crops without; when motion is disabled the start crop is
replaced by a copy of the end crop. -/
def processImageCrops (cfg : FaceCropperCfg) (opts : PipelineOptions)
    (width height : ℚ) (detections : List DetectionResult)
    (direction : MotionDirection) (manual : Option ManualCrop) :
    CropBox × CropBox :=
  let se : CropBox × CropBox :=
    match manual with
    | some mc =>
      (normalizeCropWithOverflow width height mc.start (1/2),
       normalizeCropWithOverflow width height mc.stop (1/2))
    | none =>
      if opts.motionEnabled = true then
        let am := determineMotionManual cfg opts width height detections direction
        (normalizeCropWithOverflow width height am.start 0,
         normalizeCropWithOverflow width height am.stop 0)
      else
        let a := normalizeCropWithOverflow width height
          (determineCropBox cfg opts width height detections) 0
        (a, a)
  if opts.motionEnabled = true then se else (se.2, se.2)

/-- The frame sequence `process_image` feeds to the encoder: the crop pair
above run through `_iter_motion_frames` at the preferred fps for the fixed
5-second clip duration. -/
def processImageFrames (cfg : FaceCropperCfg) (opts : PipelineOptions)
    (width height : ℚ) (detections : List DetectionResult)
    (direction : MotionDirection) (manual : Option ManualCrop) : List CropBox :=
  let se := processImageCrops cfg opts width height detections direction manual
  motionCropsList se.1 se.2 (preferredFps opts.fps) imageClipDuration
    opts.motionEnabled

section FrameCounts

/-- Count facts for the motion-enabled branch of `_iter_motion_frames`. -/
theorem motionCounts_spec (fps : ℚ) (total : ℤ) (htot : 1 ≤ total) :
    0 ≤ (motionCounts fps total).1
    ∧ 0 ≤ (motionCounts fps total).2.1
    ∧ 0 ≤ (motionCounts fps total).2.2
    ∧ (motionCounts fps total).1 + (motionCounts fps total).2.1
        + (motionCounts fps total).2.2 = total
    ∧ (startHold0 fps + endHold0 fps ≤ total →
        (motionCounts fps total).1 = startHold0 fps
        ∧ (motionCounts fps total).2.2 = endHold0 fps
        ∧ (motionCounts fps total).2.1 = total - startHold0 fps - endHold0 fps)
    ∧ ((motionCounts fps total).2.2 ≠ endHold0 fps →
        (motionCounts fps total).1 = 1) := by
  have hsh : 1 ≤ startHold0 fps := le_max_left _ _
  have heh : 1 ≤ endHold0 fps := le_max_left _ _
  unfold motionCounts
  generalize startHold0 fps = a at hsh ⊢
  generalize endHold0 fps = b at heh ⊢
  generalize pyRound (imageTransitionDuration * fps) = c
  dsimp only
  split_ifs <;> dsimp only <;> omega

/-- The motion-enabled frame list has exactly as many frames as the three
segment counts. -/
theorem motionCropsList_length (start stop : CropBox) (fps duration : ℚ) :
    (motionCropsList start stop fps duration true).length
      = (motionCounts fps (totalFrames fps duration)).1.toNat
        + (motionCounts fps (totalFrames fps duration)).2.1.toNat
        + (motionCounts fps (totalFrames fps duration)).2.2.toNat := by
  unfold motionCropsList
  dsimp only
  rw [if_pos rfl]
  rw [List.length_append, List.length_append, List.length_replicate,
    List.length_replicate]
  by_cases hmf : 0 < (motionCounts fps (totalFrames fps duration)).2.1
  · rw [if_pos ⟨rfl, hmf⟩]
    simp only [List.length_map, List.length_range]
  · rw [if_neg fun hc => hmf hc.2]
    simp only [List.length_replicate]

/-- C5: with motion enabled, `_iter_motion_frames` yields exactly
`max(1, round(duration*fps))` frames; the three segment counts are all
nonnegative and sum to the total; when the start and end holds fit, the
holds keep their nominal sizes and all rounding leftover goes to the
transition; and the end hold is only ever reduced after the start hold has
been reduced to a single frame. -/
theorem frame_count_conservation (start stop : CropBox) (fps duration : ℚ)
    (_hfps : 1 ≤ fps) (_hdur : 0 < duration) :
    (motionCropsList start stop fps duration true).length
        = (totalFrames fps duration).toNat
    ∧ 0 ≤ (motionCounts fps (totalFrames fps duration)).1
    ∧ 0 ≤ (motionCounts fps (totalFrames fps duration)).2.1
    ∧ 0 ≤ (motionCounts fps (totalFrames fps duration)).2.2
    ∧ (motionCounts fps (totalFrames fps duration)).1
        + (motionCounts fps (totalFrames fps duration)).2.1
        + (motionCounts fps (totalFrames fps duration)).2.2
        = totalFrames fps duration
    ∧ (startHold0 fps + endHold0 fps ≤ totalFrames fps duration →
        (motionCounts fps (totalFrames fps duration)).1 = startHold0 fps
        ∧ (motionCounts fps (totalFrames fps duration)).2.2 = endHold0 fps
        ∧ (motionCounts fps (totalFrames fps duration)).2.1
            = totalFrames fps duration - startHold0 fps - endHold0 fps)
    ∧ ((motionCounts fps (totalFrames fps duration)).2.2 ≠ endHold0 fps →
        (motionCounts fps (totalFrames fps duration)).1 = 1) := by
  have htot : 1 ≤ totalFrames fps duration := le_max_left _ _
  obtain ⟨c1, c2, c3, c4, c5, c6⟩ := motionCounts_spec fps (totalFrames fps duration) htot
  refine ⟨?_, c1, c2, c3, c4, c5, c6⟩
  rw [motionCropsList_length]
  omega

/-- C5 witness: the conservation theorem applied at `fps = 30`,
`duration = 5`, where the total is 150 frames. -/
theorem frame_count_conservation_witness :
    ((1:ℚ) ≤ 30 ∧ (0:ℚ) < 5)
    ∧ (motionCropsList { x := 0, y := 0, size := 1 } { x := 5, y := 5, size := 9 }
        30 5 true).length = (totalFrames 30 5).toNat
    ∧ (totalFrames 30 5).toNat = 150 := by
  refine ⟨⟨by norm_num, by norm_num⟩,
    (frame_count_conservation { x := 0, y := 0, size := 1 } { x := 5, y := 5, size := 9 }
      30 5 (by norm_num) (by norm_num)).1, ?_⟩
  norm_num [totalFrames, pyRound]
  rfl

end FrameCounts

/-- C4: when `motion_enabled` is false, every frame `process_image`
generates renders the end crop: the frame list is the end crop repeated
for the whole clip (the start crop, having been replaced by a copy of the
end crop, is never shown as a distinct framing). -/
theorem static_output_end_crop_only (cfg : FaceCropperCfg) (mode : CropMode)
    (faceEnabled : Bool) (pad : ℚ) (cx cy cw ch fpsOpt : Option ℚ)
    (width height : ℚ) (detections : List DetectionResult)
    (direction : MotionDirection) (manual : Option ManualCrop) :
    processImageFrames cfg
        { mode := mode, faceEnabled := faceEnabled, motionEnabled := false,
          pad := pad, cropX := cx, cropY := cy, cropW := cw, cropH := ch,
          fps := fpsOpt }
        width height detections direction manual
      = List.replicate (totalFrames (preferredFps fpsOpt) imageClipDuration).toNat
          (processImageCrops cfg
            { mode := mode, faceEnabled := faceEnabled, motionEnabled := false,
              pad := pad, cropX := cx, cropY := cy, cropW := cw, cropH := ch,
              fps := fpsOpt }
            width height detections direction manual).2 := by
  simp [processImageFrames, motionCropsList, processImageCrops]

/-! ## The temporal tracker (`FaceCropper.track`) -/

/-- The mutable per-stream tracker state of `FaceCropper`
(`_last_smoothed`, `_lost_frames`, and the `ExponentialSmoother`'s
`_state` accumulator). -/
structure TrackerState where
  lastSmoothed : Option CropBox
  lostFrames : ℕ
  ema : Option (ℚ × ℚ × ℚ)
  deriving DecidableEq, Repr

/-- `ExponentialSmoother.update` from `src/face_cropper.py`: returns the
smoothed box together with the new accumulator vector
`α·(x,y,size) + (1-α)·previous` (or the raw vector on the first call). -/
def smootherUpdate (alpha : ℚ) (state : Option (ℚ × ℚ × ℚ)) (box : CropBox) :
    CropBox × (ℚ × ℚ × ℚ) :=
  let s :=
    match state with
    | none => (box.x, box.y, box.size)
    | some (px, py, ps) =>
      (alpha * box.x + (1 - alpha) * px,
       alpha * box.y + (1 - alpha) * py,
       alpha * box.size + (1 - alpha) * ps)
  ({ x := s.1, y := s.2.1, size := s.2.2 }, s)

/-- The focus computation of `FaceCropper.track` (lines 598-611): prefer
`combine_detections`, else `select_detection` (copying the target's box),
else `focus_window` at the current window size. In every `some` case the
window size the caller keeps equals the returned box's `size`. -/
def focusOf (cfg : FaceCropperCfg) (detections : List DetectionResult)
    (width height fallbackSize : ℚ) : Option CropBox :=
  match combineDetections cfg detections width height with
  | some combined => some combined
  | none =>
    match selectDetection cfg detections width height with
    | some target =>
      some { x := target.box.x, y := target.box.y, size := target.box.size }
    | none => focusWindow cfg detections width height fallbackSize

/-- `math.copysign(magnitude, sign)` (Python `copysign(m, 0.0) = |m|`). -/
def copysign (magnitude sign : ℚ) : ℚ :=
  if sign < 0 then -|magnitude| else |magnitude|

/-- `FaceCropper.track` from `src/face_cropper.py` as a state transition:
given the candidate list that `detect_subjects` produced for the frame
(the image itself only enters detection), return the crop for this frame
and the updated tracker state. -/
def trackStep (cfg : FaceCropperCfg) (st : TrackerState)
    (detections : List DetectionResult) (width height : ℚ)
    (fallback : CropBox) : CropBox × TrackerState :=
  match focusOf cfg detections width height fallback.size with
  | none =>
    let lost := st.lostFrames + 1
    match st.lastSmoothed with
    | some last =>
      if lost ≤ cfg.maxTrackingGap then
        let windowSize := last.size
        ({ x := clamp last.x 0 (max 0 (width - windowSize)),
           y := clamp last.y 0 (max 0 (height - windowSize)),
           size := windowSize },
         { lastSmoothed := st.lastSmoothed, lostFrames := lost, ema := st.ema })
      else (fallback, { lastSmoothed := none, lostFrames := 0, ema := none })
    | none => (fallback, { lastSmoothed := none, lostFrames := 0, ema := none })
  | some focus =>
    let windowSize := focus.size
    let p := smootherUpdate cfg.alpha st.ema focus
    let sm := p.1
    let stepped : ℚ × ℚ :=
      match st.lastSmoothed with
      | some last =>
        if 0 < cfg.maxStepFraction then
          let maxStep := windowSize * cfg.maxStepFraction
          let dx := sm.x - last.x
          let dy := sm.y - last.y
          ((if maxStep < |dx| then last.x + copysign maxStep dx else sm.x),
           (if maxStep < |dy| then last.y + copysign maxStep dy else sm.y))
        else (sm.x, sm.y)
      | none => (sm.x, sm.y)
    let rx := clamp stepped.1 0 (max 0 (width - windowSize))
    let ry := clamp stepped.2 0 (max 0 (height - windowSize))
    ({ x := rx, y := ry, size := windowSize },
     { lastSmoothed := some { x := rx, y := ry, size := windowSize },
       lostFrames := 0, ema := some p.2 })

/-- Iterate `trackStep` on frames with no detections (detector dropout).
-/
def trackRunEmpty (cfg : FaceCropperCfg) (width height : ℚ)
    (fallback : CropBox) : TrackerState → ℕ → TrackerState
  | st, 0 => st
  | st, n + 1 =>
    (trackStep cfg (trackRunEmpty cfg width height fallback st n) [] width
      height fallback).2

section Tracker

theorem focusOf_nil (cfg : FaceCropperCfg) (w h s : ℚ) :
    focusOf cfg [] w h s = none := rfl

/-- When a focus box is found, `track` resets the lost counter, stores the
returned box as the new smoothed state, feeds the focus through the
exponential smoother, and returns a box of the focus's size whose position
is already clamped into the frame. -/
theorem trackStep_found (cfg : FaceCropperCfg) (st : TrackerState)
    (dets : List DetectionResult) (w h : ℚ) (fb : CropBox) (f : CropBox)
    (hf : focusOf cfg dets w h fb.size = some f) :
    (trackStep cfg st dets w h fb).1.size = f.size
    ∧ (trackStep cfg st dets w h fb).2.lastSmoothed
        = some (trackStep cfg st dets w h fb).1
    ∧ (trackStep cfg st dets w h fb).2.lostFrames = 0
    ∧ (trackStep cfg st dets w h fb).2.ema
        = some (smootherUpdate cfg.alpha st.ema f).2
    ∧ (trackStep cfg st dets w h fb).1.x
        = clamp (trackStep cfg st dets w h fb).1.x 0 (max 0 (w - f.size))
    ∧ (trackStep cfg st dets w h fb).1.y
        = clamp (trackStep cfg st dets w h fb).1.y 0 (max 0 (h - f.size)) := by
  unfold trackStep
  rw [hf]
  dsimp only
  exact ⟨rfl, rfl, rfl, rfl, (clamp_clamp _ _ _).symm, (clamp_clamp _ _ _).symm⟩

/-- Coasting: a frame with no detections within the tracking gap returns
the previous smoothed box unchanged and only bumps the lost counter. -/
theorem trackStep_coast (cfg : FaceCropperCfg) (st : TrackerState)
    (w h : ℚ) (fb b : CropBox) (hlast : st.lastSmoothed = some b)
    (hx : b.x = clamp b.x 0 (max 0 (w - b.size)))
    (hy : b.y = clamp b.y 0 (max 0 (h - b.size)))
    (hgap : st.lostFrames + 1 ≤ cfg.maxTrackingGap) :
    trackStep cfg st [] w h fb
      = (b, { lastSmoothed := some b, lostFrames := st.lostFrames + 1,
              ema := st.ema }) := by
  unfold trackStep
  rw [focusOf_nil]
  dsimp only
  rw [hlast]
  dsimp only
  rw [if_pos hgap, ← hx, ← hy]

/-- Gap exceeded: the tracker returns the fallback and resets all state. -/
theorem trackStep_reset (cfg : FaceCropperCfg) (st : TrackerState)
    (w h : ℚ) (fb b : CropBox) (hlast : st.lastSmoothed = some b)
    (hgap : ¬st.lostFrames + 1 ≤ cfg.maxTrackingGap) :
    trackStep cfg st [] w h fb
      = (fb, { lastSmoothed := none, lostFrames := 0, ema := none }) := by
  unfold trackStep
  rw [focusOf_nil]
  dsimp only
  rw [hlast]
  dsimp only
  rw [if_neg hgap]

theorem trackRunEmpty_state (cfg : FaceCropperCfg) (w h : ℚ) (fb b : CropBox)
    (e0 : Option (ℚ × ℚ × ℚ))
    (hx : b.x = clamp b.x 0 (max 0 (w - b.size)))
    (hy : b.y = clamp b.y 0 (max 0 (h - b.size))) :
    ∀ n : ℕ, n ≤ cfg.maxTrackingGap →
      trackRunEmpty cfg w h fb { lastSmoothed := some b, lostFrames := 0, ema := e0 } n
        = { lastSmoothed := some b, lostFrames := n, ema := e0 } := by
  intro n
  induction n with
  | zero => intro _; rfl
  | succ k ih =>
    intro hk
    show (trackStep cfg (trackRunEmpty cfg w h fb _ k) [] w h fb).2 = _
    rw [ih (le_trans (Nat.le_succ k) hk),
      trackStep_coast cfg { lastSmoothed := some b, lostFrames := k, ema := e0 }
        w h fb b rfl hx hy hk]

/-- C1 (tracker coasting): with `max_tracking_gap = 15` and fresh state,
if the frame-0 `track` call finds a focus box, then each of the 15
following calls with no detections returns the frame-0 smoothed box
unchanged, and the 16th such call returns the caller-supplied fallback box
and resets the tracker state (smoothed box cleared, lost counter zero, EMA
accumulator cleared). -/
theorem tracker_coasting (cfg : FaceCropperCfg) (dets0 : List DetectionResult)
    (w h : ℚ) (fb : CropBox) (f : CropBox)
    (hgap : cfg.maxTrackingGap = 15)
    (hf : focusOf cfg dets0 w h fb.size = some f) :
    (∀ n : ℕ, 1 ≤ n → n ≤ 15 →
      (trackStep cfg (trackRunEmpty cfg w h fb
          ((trackStep cfg { lastSmoothed := none, lostFrames := 0, ema := none }
            dets0 w h fb).2) (n - 1)) [] w h fb).1
        = (trackStep cfg { lastSmoothed := none, lostFrames := 0, ema := none }
            dets0 w h fb).1)
    ∧ trackStep cfg (trackRunEmpty cfg w h fb
          ((trackStep cfg { lastSmoothed := none, lostFrames := 0, ema := none }
            dets0 w h fb).2) 15) [] w h fb
        = (fb, { lastSmoothed := none, lostFrames := 0, ema := none }) := by
  obtain ⟨hsz, hlast, hlost, hema, hx, hy⟩ :=
    trackStep_found cfg { lastSmoothed := none, lostFrames := 0, ema := none }
      dets0 w h fb f hf
  set b0 := (trackStep cfg { lastSmoothed := none, lostFrames := 0, ema := none }
    dets0 w h fb).1 with hb0
  set st0 := (trackStep cfg { lastSmoothed := none, lostFrames := 0, ema := none }
    dets0 w h fb).2 with hst0
  have hx' : b0.x = clamp b0.x 0 (max 0 (w - b0.size)) := by rw [hsz]; exact hx
  have hy' : b0.y = clamp b0.y 0 (max 0 (h - b0.size)) := by rw [hsz]; exact hy
  have hst : st0 = { lastSmoothed := some b0, lostFrames := 0, ema := st0.ema } := by
    rw [← hlast, ← hlost]
  have hstate : ∀ n : ℕ, n ≤ 15 →
      trackRunEmpty cfg w h fb st0 n
        = { lastSmoothed := some b0, lostFrames := n, ema := st0.ema } := by
    intro n hn
    rw [hst]
    exact trackRunEmpty_state cfg w h fb b0 st0.ema hx' hy' n (by rw [hgap]; exact hn)
  constructor
  · intro n h1 h15
    rw [hstate (n - 1) (by omega),
      trackStep_coast cfg
        { lastSmoothed := some b0, lostFrames := n - 1, ema := st0.ema }
        w h fb b0 rfl hx' hy' (by rw [hgap]; show n - 1 + 1 ≤ 15; omega)]
  · rw [hstate 15 le_rfl,
      trackStep_reset cfg
        { lastSmoothed := some b0, lostFrames := 15, ema := st0.ema }
        w h fb b0 rfl (by rw [hgap]; show ¬15 + 1 ≤ 15; omega)]

end Tracker

section Smoothing

/-- C3 (amended): on every `track` call where a focus box `f` is found,
the smoother state is updated by the componentwise EMA
`α·(x,y,size) + (1-α)·previous`; the RETURNED box, however, has its size
overwritten with the window size `f.size` (so the size component is
neither the EMA value nor step-clamped), while its `x` and `y` are the
EMA values step-clamped (when a previous smoothed box exists and the step
fraction is positive) to at most `max_step_fraction * windowSize` per
axis and then clamped into the frame: in particular the returned position
moves at most `max_step_fraction * f.size` per axis from an in-frame
previous box. -/
theorem track_smoothing (cfg : FaceCropperCfg) (st : TrackerState)
    (dets : List DetectionResult) (w h : ℚ) (fb : CropBox) (f : CropBox)
    (hf : focusOf cfg dets w h fb.size = some f)
    (hfrac : 0 < cfg.maxStepFraction) (hsz : 0 < f.size) :
    (trackStep cfg st dets w h fb).1.size = f.size
    ∧ (trackStep cfg st dets w h fb).2.ema
        = some (match st.ema with
                | none => (f.x, f.y, f.size)
                | some (px, py, ps) =>
                  (cfg.alpha * f.x + (1 - cfg.alpha) * px,
                   cfg.alpha * f.y + (1 - cfg.alpha) * py,
                   cfg.alpha * f.size + (1 - cfg.alpha) * ps))
    ∧ (∀ last : CropBox, st.lastSmoothed = some last →
        0 ≤ last.x → last.x ≤ max 0 (w - f.size) →
        |(trackStep cfg st dets w h fb).1.x - last.x|
          ≤ cfg.maxStepFraction * f.size)
    ∧ (∀ last : CropBox, st.lastSmoothed = some last →
        0 ≤ last.y → last.y ≤ max 0 (h - f.size) →
        |(trackStep cfg st dets w h fb).1.y - last.y|
          ≤ cfg.maxStepFraction * f.size) := by
  have hms : 0 < f.size * cfg.maxStepFraction := mul_pos hsz hfrac
  unfold trackStep
  rw [hf]
  dsimp only
  refine ⟨rfl, rfl, ?_, ?_⟩
  · intro last hlast h0 h1
    rw [hlast]
    dsimp only
    rw [if_pos hfrac]
    set sm := (smootherUpdate cfg.alpha st.ema f).1 with hsm
    have hstep : |(if f.size * cfg.maxStepFraction < |sm.x - last.x| then
          last.x + copysign (f.size * cfg.maxStepFraction) (sm.x - last.x)
        else sm.x) - last.x| ≤ f.size * cfg.maxStepFraction := by
      split_ifs with hbig
      · unfold copysign
        split_ifs with hneg
        · rw [add_sub_cancel_left, abs_neg, abs_abs,
            abs_of_pos hms]
        · rw [add_sub_cancel_left, abs_abs, abs_of_pos hms]
      · push_neg at hbig
        exact hbig
    calc |clamp (if f.size * cfg.maxStepFraction < |sm.x - last.x| then
            last.x + copysign (f.size * cfg.maxStepFraction) (sm.x - last.x)
          else sm.x) 0 (max 0 (w - f.size)) - last.x|
        ≤ |(if f.size * cfg.maxStepFraction < |sm.x - last.x| then
            last.x + copysign (f.size * cfg.maxStepFraction) (sm.x - last.x)
          else sm.x) - last.x| := clamp_dist_le _ h0 h1
      _ ≤ f.size * cfg.maxStepFraction := hstep
      _ = cfg.maxStepFraction * f.size := mul_comm _ _
  · intro last hlast h0 h1
    rw [hlast]
    dsimp only
    rw [if_pos hfrac]
    set sm := (smootherUpdate cfg.alpha st.ema f).1 with hsm
    have hstep : |(if f.size * cfg.maxStepFraction < |sm.y - last.y| then
          last.y + copysign (f.size * cfg.maxStepFraction) (sm.y - last.y)
        else sm.y) - last.y| ≤ f.size * cfg.maxStepFraction := by
      split_ifs with hbig
      · unfold copysign
        split_ifs with hneg
        · rw [add_sub_cancel_left, abs_neg, abs_abs,
            abs_of_pos hms]
        · rw [add_sub_cancel_left, abs_abs, abs_of_pos hms]
      · push_neg at hbig
        exact hbig
    calc |clamp (if f.size * cfg.maxStepFraction < |sm.y - last.y| then
            last.y + copysign (f.size * cfg.maxStepFraction) (sm.y - last.y)
          else sm.y) 0 (max 0 (h - f.size)) - last.y|
        ≤ |(if f.size * cfg.maxStepFraction < |sm.y - last.y| then
            last.y + copysign (f.size * cfg.maxStepFraction) (sm.y - last.y)
          else sm.y) - last.y| := clamp_dist_le _ h0 h1
      _ ≤ f.size * cfg.maxStepFraction := hstep
      _ = cfg.maxStepFraction * f.size := mul_comm _ _

end Smoothing

section TrackerWitnesses

def cfgW1 : FaceCropperCfg :=
  { minFace := 1/10, facePriority := .largest, alpha := 2/5,
    maxTrackingGap := 15, maxStepFraction := 3/20 }

def detsW1 : List DetectionResult :=
  [{ score := 1, box := { x := 0, y := 0, size := 100 } }]

def fbW1 : CropBox := { x := 450, y := 450, size := 100 }

/-- C1 witness: coasting run at a concrete single detection, checked at
call 7 and call 16. -/
theorem tracker_coasting_witness :
    cfgW1.maxTrackingGap = 15
    ∧ focusOf cfgW1 detsW1 1000 1000 fbW1.size
        = some { x := 0, y := 0, size := 100 }
    ∧ (trackStep cfgW1 (trackRunEmpty cfgW1 1000 1000 fbW1
        ((trackStep cfgW1 { lastSmoothed := none, lostFrames := 0, ema := none }
          detsW1 1000 1000 fbW1).2) 6) [] 1000 1000 fbW1).1
        = (trackStep cfgW1 { lastSmoothed := none, lostFrames := 0, ema := none }
            detsW1 1000 1000 fbW1).1
    ∧ trackStep cfgW1 (trackRunEmpty cfgW1 1000 1000 fbW1
        ((trackStep cfgW1 { lastSmoothed := none, lostFrames := 0, ema := none }
          detsW1 1000 1000 fbW1).2) 15) [] 1000 1000 fbW1
        = (fbW1, { lastSmoothed := none, lostFrames := 0, ema := none }) := by
  have hf : focusOf cfgW1 detsW1 1000 1000 fbW1.size
      = some { x := 0, y := 0, size := 100 } := by
    norm_num [focusOf, combineDetections, filterRelevant, selectDetection,
      maxOf, sortByDesc, insertByDesc, pyMaxBy, priorityVal, centerFactor,
      List.filter, cfgW1, detsW1, fbW1]
  refine ⟨rfl, hf, ?_, ?_⟩
  · exact (tracker_coasting cfgW1 detsW1 1000 1000 fbW1
      { x := 0, y := 0, size := 100 } rfl hf).1 7 (by norm_num) (by norm_num)
  · exact (tracker_coasting cfgW1 detsW1 1000 1000 fbW1
      { x := 0, y := 0, size := 100 } rfl hf).2

/-- C3 counterexample: with `α = 0.4` and `max_step_fraction = 0.15`, feed
a size-100 focus then a size-50 focus on a 1000×1000 frame. The second
call returns a box of size `50`, while the componentwise EMA size is
`0.4·50 + 0.6·100 = 80 ≠ 50`, and the size step `|50 - 100| = 50` exceeds
`max_step_fraction · windowSize = 7.5`: the returned box is neither the
EMA vector nor size-step-clamped. -/
theorem track_smoothing_counterexample :
    (trackStep cfgW1
        ((trackStep cfgW1 { lastSmoothed := none, lostFrames := 0, ema := none }
          [{ score := 1, box := { x := 0, y := 0, size := 100 } }] 1000 1000
          { x := 0, y := 0, size := 100 }).2)
        [{ score := 1, box := { x := 0, y := 0, size := 50 } }] 1000 1000
        { x := 0, y := 0, size := 100 }).1
      = { x := 0, y := 0, size := 50 }
    ∧ ((trackStep cfgW1 { lastSmoothed := none, lostFrames := 0, ema := none }
          [{ score := 1, box := { x := 0, y := 0, size := 100 } }] 1000 1000
          { x := 0, y := 0, size := 100 }).2).ema = some (0, 0, 100)
    ∧ cfgW1.alpha * 50 + (1 - cfgW1.alpha) * 100 = 80
    ∧ (50 : ℚ) ≠ 80
    ∧ ¬(|(50 : ℚ) - 100| ≤ cfgW1.maxStepFraction * 50) := by
  have hfoc0 : focusOf cfgW1
      [{ score := 1, box := { x := 0, y := 0, size := 100 } }] 1000 1000 100
      = some { x := 0, y := 0, size := 100 } := by
    norm_num [focusOf, combineDetections, filterRelevant, selectDetection,
      maxOf, sortByDesc, insertByDesc, pyMaxBy, priorityVal, centerFactor,
      List.filter, cfgW1]
  have hfoc1 : focusOf cfgW1
      [{ score := 1, box := { x := 0, y := 0, size := 50 } }] 1000 1000 100
      = some { x := 0, y := 0, size := 50 } := by
    norm_num [focusOf, combineDetections, filterRelevant, selectDetection,
      maxOf, sortByDesc, insertByDesc, pyMaxBy, priorityVal, centerFactor,
      List.filter, cfgW1]
  have hstep0 : trackStep cfgW1 { lastSmoothed := none, lostFrames := 0, ema := none }
      [{ score := 1, box := { x := 0, y := 0, size := 100 } }] 1000 1000
      { x := 0, y := 0, size := 100 }
      = ({ x := 0, y := 0, size := 100 },
         { lastSmoothed := some { x := 0, y := 0, size := 100 },
           lostFrames := 0, ema := some (0, 0, 100) }) := by
    unfold trackStep
    dsimp only
    rw [hfoc0]
    norm_num [smootherUpdate, clamp]
  have hstep1 : trackStep cfgW1
      { lastSmoothed := some { x := 0, y := 0, size := 100 },
        lostFrames := 0, ema := some (0, 0, 100) }
      [{ score := 1, box := { x := 0, y := 0, size := 50 } }] 1000 1000
      { x := 0, y := 0, size := 100 }
      = ({ x := 0, y := 0, size := 50 },
         { lastSmoothed := some { x := 0, y := 0, size := 50 },
           lostFrames := 0, ema := some (0, 0, 80) }) := by
    unfold trackStep
    dsimp only
    rw [hfoc1]
    norm_num [smootherUpdate, copysign, clamp, cfgW1]
  refine ⟨?_, by rw [hstep0], by norm_num [cfgW1], by norm_num, ?_⟩
  · rw [hstep0, hstep1]
  · norm_num [cfgW1]

/-- C3 witness: the amended smoothing theorem applied at the same
concrete second frame. -/
theorem track_smoothing_witness :
    focusOf cfgW1 [{ score := 1, box := { x := 0, y := 0, size := 50 } }]
        1000 1000 (100 : ℚ) = some { x := 0, y := 0, size := 50 }
    ∧ (0 : ℚ) < cfgW1.maxStepFraction
    ∧ (0 : ℚ) < (50 : ℚ)
    ∧ (trackStep cfgW1
        { lastSmoothed := some { x := 0, y := 0, size := 100 },
          lostFrames := 0, ema := some (0, 0, 100) }
        [{ score := 1, box := { x := 0, y := 0, size := 50 } }] 1000 1000
        { x := 0, y := 0, size := 100 }).1.size = 50 := by
  have hfoc1 : focusOf cfgW1
      [{ score := 1, box := { x := 0, y := 0, size := 50 } }] 1000 1000 100
      = some { x := 0, y := 0, size := 50 } := by
    norm_num [focusOf, combineDetections, filterRelevant, selectDetection,
      maxOf, sortByDesc, insertByDesc, pyMaxBy, priorityVal, centerFactor,
      List.filter, cfgW1]
  refine ⟨hfoc1, by norm_num [cfgW1], by norm_num, ?_⟩
  exact (track_smoothing cfgW1
    { lastSmoothed := some { x := 0, y := 0, size := 100 },
      lostFrames := 0, ema := some (0, 0, 100) }
    [{ score := 1, box := { x := 0, y := 0, size := 50 } }] 1000 1000
    { x := 0, y := 0, size := 100 } { x := 0, y := 0, size := 50 }
    hfoc1 (by norm_num [cfgW1]) (by norm_num)).1

end TrackerWitnesses

end MemoryBall
